import Mathlib

/-!
Verification of the Las-Vegas-Reconstruction core: the marching-tetrahedra
lookup tables (`TetraederTable.hpp`) and the `FlannPointCloudManager`
point-cloud manager. The lookup tables are embedded verbatim as lists of
integer rows; the manager is modelled as a state structure over rational
coordinates (floating point is replaced by exact rationals).
-/

namespace LVR

/-- Embedding of `TetraederTable[16][7]` from `TetraederTable.hpp`:
configuration index (4-bit corner sign pattern) to up to two triangles,
each given by three local-edge ids, padded with -1. -/
def TetraederTable : List (List Int) :=
  [ [-1, -1, -1, -1, -1, -1, -1],
    [ 0,  3,  2, -1, -1, -1, -1],
    [ 0,  1,  4, -1, -1, -1, -1],
    [ 2,  1,  3,  3,  1,  4, -1],
    [ 3,  4,  5, -1, -1, -1, -1],
    [ 2,  0,  5,  5,  0,  4, -1],
    [ 3,  0,  1,  3,  1,  5, -1],
    [ 2,  1,  5, -1, -1, -1, -1],
    [ 2,  5,  1, -1, -1, -1, -1],
    [ 3,  1,  0,  3,  5,  1, -1],
    [ 2,  5,  0,  5,  4,  0, -1],
    [ 3,  5,  4, -1, -1, -1, -1],
    [ 2,  3,  1,  3,  4,  1, -1],
    [ 0,  4,  1, -1, -1, -1, -1],
    [ 0,  2,  3, -1, -1, -1, -1],
    [-1, -1, -1, -1, -1, -1, -1] ]

/-- Embedding of `TetraederIntersectionTable[6][6]` from `TetraederTable.hpp`. -/
def TetraederIntersectionTable : List (List Int) :=
  [ [ 0, 12,  8,  3, 16, 14],
    [16, 12, 14,  2,  1, 18],
    [18, 13,  7, 14,  2, 10],
    [ 9,  4, 12,  1, 15, 18],
    [ 4, 17,  7, 18, 15, 13],
    [15, 17, 13, 11,  5,  6] ]

/-- Embedding of `TetraederDefinitionTable[6][4]` from `TetraederTable.hpp`:
tetrahedron slot within a cube to the four cube-corner indices it spans. -/
def TetraederDefinitionTable : List (List Int) :=
  [ [0, 1, 3, 4],
    [3, 1, 2, 4],
    [4, 2, 3, 7],
    [1, 5, 2, 4],
    [4, 5, 2, 7],
    [2, 5, 6, 7] ]

/-- Embedding of `TetraederNeighborTable[19][3]` from `TetraederTable.hpp`. -/
def TetraederNeighborTable : List (List Int) :=
  [ [12, 10,  9],
    [22, 12, 21],
    [16, 12, 15],
    [ 4,  3, 12],
    [14, 10, 11],
    [23, 22, 14],
    [14, 16, 17],
    [ 4,  5, 14],
    [ 4,  1, 10],
    [22, 19, 10],
    [ 4,  7, 16],
    [22, 25, 16],
    [10, -1, -1],
    [16, -1, -1],
    [ 4, -1, -1],
    [22, -1, -1],
    [12, -1, -1],
    [14, -1, -1],
    [-1, -1, -1] ]

/-- Embedding of `TetraederVertexNBTable[19][3]` from `TetraederTable.hpp`. -/
def TetraederVertexNBTable : List (List Int) :=
  [ [ 4,  2,  6],
    [ 3,  5,  7],
    [ 0,  6,  4],
    [ 1,  5,  7],
    [ 0,  6,  2],
    [ 3,  7,  1],
    [ 2,  4,  0],
    [ 5,  1,  3],
    [ 9, 11, 10],
    [ 8, 10, 11],
    [11,  9,  8],
    [10,  8,  9],
    [13, -1, -1],
    [12, -1, -1],
    [15, -1, -1],
    [14, -1, -1],
    [17, -1, -1],
    [16, -1, -1],
    [-1, -1, -1] ]

/-- Row `c` of `TetraederTable`, as the C array indexing `TetraederTable[c]`. -/
def ttRow (c : Nat) : List Int := (TetraederTable.get? c).getD []

/-- Number of edge references in row `c` of `TetraederTable` before the
first -1 terminator (3 per emitted triangle). -/
def ttEntryCount (c : Nat) : Nat := ((ttRow c).takeWhile (fun e => e != -1)).length

/-- Popcount of the low 4 bits of a configuration index: the number of
tetrahedron corners classified as inside. -/
def popcount4 (c : Nat) : Nat := c % 2 + c / 2 % 2 + c / 4 % 2 + c / 8 % 2

/-- List of triangles of row `c` of `TetraederTable`, each triangle read as
an unordered multiset of its 3 local-edge identifiers, and the row's
triangle list itself read as a multiset. -/
def ttTriangles (c : Nat) : Multiset (Multiset Int) :=
  (List.range (ttEntryCount c / 3)).map
    (fun t => (((ttRow c).drop (3 * t)).take 3 : Multiset Int))

/-- Entry `TetraederNeighborTable[i][j]` of the neighbor table. -/
def nbEntry (i j : Nat) : Int :=
  ((((TetraederNeighborTable.get? i).getD []).get? j).getD (-1))

/-- Row `i` of `TetraederVertexNBTable`. -/
def vnbRow (i : Nat) : List Int := (TetraederVertexNBTable.get? i).getD []

end LVR

namespace LVR

/-- C1: for every configuration index c in [0,15], `TetraederTable[c]` holds
zero edge references exactly when c is 0 or 15; exactly 3 (one triangle)
exactly when the 4-bit pattern of c has popcount 1 or 3; and exactly 6
(two triangles) exactly when the popcount is 2. -/
theorem tetraederTable_triangle_counts :
    ∀ c : Fin 16,
      (ttEntryCount c.val = 0 ↔ (c.val = 0 ∨ c.val = 15)) ∧
      (ttEntryCount c.val = 3 ↔ (popcount4 c.val = 1 ∨ popcount4 c.val = 3)) ∧
      (ttEntryCount c.val = 6 ↔ popcount4 c.val = 2) := by
  decide

/-- C9: every entry of `TetraederTable` is either -1 or a local-edge id in
[0,5], and within each row every entry after the first -1 is also -1. -/
theorem tetraederTable_entries_wf :
    ∀ row ∈ TetraederTable,
      (∀ e ∈ row, e = -1 ∨ (0 ≤ e ∧ e ≤ 5)) ∧
      (∀ e ∈ row.dropWhile (fun e => e != -1), e = -1) := by
  decide

/-- Witness for C9 at the concrete row `TetraederTable[3]`. -/
theorem tetraederTable_entries_wf_witness :
    (∀ e ∈ ttRow 3, e = -1 ∨ (0 ≤ e ∧ e ≤ 5)) ∧
    (∀ e ∈ (ttRow 3).dropWhile (fun e => e != -1), e = -1) :=
  tetraederTable_entries_wf (ttRow 3) (by decide)

/-- C4: for every configuration index c in [0,15], rows c and 15-c of
`TetraederTable` encode the same collection of triangles when each triangle
is read as an unordered multiset of 3 local-edge identifiers. -/
theorem tetraederTable_complement_symmetric :
    ∀ c : Fin 16, ttTriangles c.val = ttTriangles (15 - c.val) := by
  decide

/-- C10: the vertex-neighbor adjacency of `TetraederVertexNBTable` is
symmetric: for all i, j in [0,18], j occurs among the entries of row i
iff i occurs among the entries of row j. -/
theorem tetraederVertexNBTable_symmetric :
    ∀ i j : Fin 19, ((j.val : Int) ∈ vnbRow i.val ↔ (i.val : Int) ∈ vnbRow j.val) := by
  decide

/-- C3 counterexample: `TetraederNeighborTable[0][0]` is 12, a non-negative
entry outside the claimed tetrahedron-slot range [0,5]. -/
theorem tetraederNeighborTable_entry_out_of_slot_range :
    nbEntry 0 0 = 12 ∧ ¬ nbEntry 0 0 ≤ 5 := by
  decide

/-- C3 amended: `TetraederNeighborTable` has 19 rows of 3 entries each,
with -1 where no neighbor exists, and every non-negative entry is an index
in [0,26] (a cell of the 3x3x3 neighborhood of the cube). -/
theorem tetraederNeighborTable_entries_wf :
    TetraederNeighborTable.length = 19 ∧
    ∀ row ∈ TetraederNeighborTable,
      row.length = 3 ∧ ∀ e ∈ row, e = -1 ∨ (0 ≤ e ∧ e ≤ 26) := by
  decide

/-- Witness for the amended C3 at the concrete row `TetraederNeighborTable[0]`. -/
theorem tetraederNeighborTable_entries_wf_witness :
    [(12 : Int), 10, 9].length = 3 ∧ ∀ e ∈ [(12 : Int), 10, 9], e = -1 ∨ (0 ≤ e ∧ e ≤ 26) :=
  tetraederNeighborTable_entries_wf.2 [12, 10, 9] (by decide)

/-- Rational 3-vector standing in for the float vertex and normal types of
the templated `FlannPointCloudManager` (exact rationals replace floats). -/
structure VecQ where
  x : ℚ
  y : ℚ
  z : ℚ
deriving DecidableEq

/-- Componentwise vector addition. -/
def add (a b : VecQ) : VecQ := ⟨a.x + b.x, a.y + b.y, a.z + b.z⟩

/-- Componentwise vector subtraction. -/
def sub (a b : VecQ) : VecQ := ⟨a.x - b.x, a.y - b.y, a.z - b.z⟩

/-- Componentwise vector negation. -/
def neg (a : VecQ) : VecQ := ⟨-a.x, -a.y, -a.z⟩

/-- Scalar multiple of a vector. -/
def smul (c : ℚ) (a : VecQ) : VecQ := ⟨c * a.x, c * a.y, c * a.z⟩

/-- Dot product. -/
def dot (a b : VecQ) : ℚ := a.x * b.x + a.y * b.y + a.z * b.z

/-- Cross product. -/
def cross (a b : VecQ) : VecQ :=
  ⟨a.y * b.z - a.z * b.y, a.z * b.x - a.x * b.z, a.x * b.y - a.y * b.x⟩

/-- Squared Euclidean distance between two points; sorting by it gives the
same order as sorting by Euclidean distance. -/
def d2 (a b : VecQ) : ℚ := dot (sub a b) (sub a b)

/-- Embedding of the `Plane` helper struct of `FlannPointCloudManager.hpp`:
a tangent plane of a query point, with fit coefficients a, b, c, a normal n
and an anchor point p. -/
structure Plane where
  a : ℚ
  b : ℚ
  c : ℚ
  n : VecQ
  p : VecQ
deriving DecidableEq

/-- State of a `FlannPointCloudManager`: the owned point and normal arrays
and the neighborhood-size parameters kn (normal estimation), ki (normal
interpolation) and kd (distance queries). -/
structure Manager where
  points : List VecQ
  normals : List VecQ
  kn : Nat
  ki : Nat
  kd : Nat
deriving DecidableEq

/-- Ordering of points by (squared) distance to a query vertex v. -/
def distLe (v a b : VecQ) : Prop := d2 v a ≤ d2 v b

instance distLe.decidable (v : VecQ) : DecidableRel (distLe v) :=
  fun a b => decidable_of_iff (d2 v a ≤ d2 v b) Iff.rfl

instance distLe.isTotal (v : VecQ) : IsTotal VecQ (distLe v) :=
  ⟨fun a b => le_total (d2 v a) (d2 v b)⟩

instance distLe.isTrans (v : VecQ) : IsTrans VecQ (distLe v) :=
  ⟨fun _ _ _ => le_trans⟩

/-- Ordering of (point, normal) pairs by distance of the point to v. -/
def pairDistLe (v : VecQ) (a b : VecQ × VecQ) : Prop := d2 v a.1 ≤ d2 v b.1

instance pairDistLe.decidable (v : VecQ) : DecidableRel (pairDistLe v) :=
  fun a b => decidable_of_iff (d2 v a.1 ≤ d2 v b.1) Iff.rfl

/-- Modelled from the spec: the body of
`FlannPointCloudManager::getkClosestVertices` lives in the absent
`FlannPointCloudManager.tcc`; per the spec it returns up to k nearest stored
points to the query by Euclidean distance, fewer if n < k. Modelled as
sorting the stored points by distance to v and taking the first k. -/
def getkClosestVertices (m : Manager) (v : VecQ) (k : Nat) : List VecQ :=
  (m.points.insertionSort (distLe v)).take k

/-- Embedding of `FlannPointCloudManager::getkClosestNormals` from
`FlannPointCloudManager.hpp`: its inline body is empty (only a
`TODO: Implement method` comment), so the call leaves the manager state and
the output vector nb unchanged and returns nothing. -/
def getkClosestNormals (m : Manager) (n : VecQ) (k : Nat) (nb : List VecQ) :
    Manager × List VecQ := (m, nb)

/-- Mean of a list of points. -/
def centroid (pts : List VecQ) : VecQ :=
  smul (1 / (pts.length : ℚ)) (pts.foldr add ⟨0, 0, 0⟩)

/-- Modelled from the spec: `FlannPointCloudManager::calcPlane` is declared in
the header but implemented in the absent `.tcc`; per the spec it builds the
tangent plane for a query point from a neighborhood, with anchor the
neighborhood centroid and normal the least-squares fit normal, and "must
handle the degenerate case of fewer than 3 non-collinear points by failing".
Modelled with the normal taken as the cross product of the first two edge
vectors of the neighborhood (unnormalized: exact rationals have no square
root), failing on fewer than 3 points or a collinear leading triple. -/
def calcPlane (queryPoint : VecQ) (k : Nat) (id : List VecQ) : Option Plane :=
  match id with
  | p0 :: p1 :: p2 :: _ =>
      let n := cross (sub p1 p0) (sub p2 p0)
      if n = ⟨0, 0, 0⟩ then none
      else some ⟨n.x, n.y, n.z, n, centroid id⟩
  | _ => none

/-- Modelled from the spec: `FlannPointCloudManager::distance` is declared in
the header but implemented in the absent `.tcc`; per the spec it projects v
onto the nearest locally-fitted tangent plane and returns the
plane-normal-signed offset and the distance to the plane's anchor, and
"Fails (returns a sentinel / reports error) if no neighbor plane can be
fitted (e.g., n < kn)". Failure is modelled as `none`; the distance to the
anchor is represented by its square (exact rationals have no square root). -/
def distance (m : Manager) (v : VecQ) : Option (ℚ × ℚ) :=
  let nb := getkClosestVertices m v m.kn
  if nb.length < m.kn then none
  else
    match calcPlane v m.kn nb with
    | none => none
    | some pl => some (dot (sub v pl.p) pl.n, d2 v pl.p)

/-- Modelled from the spec: initial normal estimation for one point — query
the kn nearest neighbors, fit a plane, and orient the normal consistently
with the direction from the global centroid to the query point; a degenerate
neighborhood falls back to the centroid-pointing direction. -/
def estimateNormal (pts : List VecQ) (ctr : VecQ) (kn : Nat) (p : VecQ) : VecQ :=
  let nb := (pts.insertionSort (distLe p)).take kn
  match calcPlane p kn nb with
  | none => sub p ctr
  | some pl => if dot pl.n (sub p ctr) < 0 then neg pl.n else pl.n

/-- Modelled from the spec: normal interpolation — for each point, average
the previously computed initial normals of its ki nearest neighbors (unit
re-normalization is omitted: exact rationals have no square root). -/
def interpolateNormals (pts normals0 : List VecQ) (ki : Nat) : List VecQ :=
  pts.map (fun p =>
    let nbs := ((pts.zip normals0).insertionSort (pairDistLe p)).take ki
    smul (1 / (nbs.length : ℚ)) (nbs.foldr (fun q acc => add q.2 acc) ⟨0, 0, 0⟩))

/-- Modelled from the spec: `FlannPointCloudManager::calcNormals` is declared
in the header but implemented in the absent `.tcc`; per the spec it computes
initial normals for every point, then interpolates them in a second phase,
overwriting any previously stored normals. -/
def calcNormals (m : Manager) : Manager :=
  let ctr := centroid m.points
  let initial := m.points.map (estimateNormal m.points ctr m.kn)
  { m with normals := interpolateNormals m.points initial m.ki }

/-- C2: `getkClosestNormals` is a no-op: for every query vertex n, count k
and output vector nb, it leaves nb unchanged and modifies no state of the
manager. -/
theorem getkClosestNormals_noop (m : Manager) (n : VecQ) (k : Nat)
    (nb : List VecQ) : getkClosestNormals m n k nb = (m, nb) := rfl

/-- C6: `getkClosestVertices` returns exactly min(k, n) points, ordered by
non-decreasing (squared, hence also Euclidean) distance to the query v. -/
theorem getkClosestVertices_spec (m : Manager) (v : VecQ) (k : Nat) :
    (getkClosestVertices m v k).length = min k m.points.length ∧
    (getkClosestVertices m v k).Sorted (distLe v) ∧
    (getkClosestVertices m v k).Pairwise
      (fun a b => Real.sqrt ((d2 v a : ℝ)) ≤ Real.sqrt ((d2 v b : ℝ))) := by
  have hs : (getkClosestVertices m v k).Sorted (distLe v) :=
    List.Pairwise.sublist (List.take_sublist _ _) (List.sorted_insertionSort _ _)
  refine ⟨?_, hs, ?_⟩
  · simp [getkClosestVertices, List.length_take, List.length_insertionSort]
  · exact hs.imp (fun h => Real.sqrt_le_sqrt (by exact_mod_cast h))

/-- C7: the distance query fails with the sentinel `none` whenever no
neighbor tangent plane can be fitted — in particular whenever the number of
stored points is smaller than kn, and whenever the plane fit itself fails. -/
theorem distance_fails_without_plane (m : Manager) (v : VecQ)
    (h : m.points.length < m.kn ∨
      calcPlane v m.kn (getkClosestVertices m v m.kn) = none) :
    distance m v = none := by
  rcases h with h | h
  · have hlen : (getkClosestVertices m v m.kn).length < m.kn := by
      simp only [getkClosestVertices, List.length_take, List.length_insertionSort]
      omega
    simp [distance, hlen]
  · by_cases hlen : (getkClosestVertices m v m.kn).length < m.kn
    · simp [distance, hlen]
    · simp [distance, hlen, h]

/-- Witness for C7 at a concrete manager holding no points (0 < kn = 10). -/
theorem distance_fails_without_plane_witness :
    distance ⟨[], [], 10, 10, 10⟩ ⟨0, 0, 0⟩ = none :=
  distance_fails_without_plane ⟨[], [], 10, 10, 10⟩ ⟨0, 0, 0⟩ (Or.inl (by decide))

/-- Real 3-vector for the cube-partition geometry of the tetrahedral
decomposition. -/
structure VecR where
  x : ℝ
  y : ℝ
  z : ℝ

/-- Modelled from the spec: the coordinates of the eight corners of the
axis-aligned unit cube, indexed 0-7 in the order used by the repository's
cube decomposition (bottom face counterclockwise from the origin, then the
top face above it); the corner coordinate table itself is not among the
sources, only the corner indices consumed by `TetraederDefinitionTable`. -/
def cubeCorner : Nat → VecR
  | 0 => ⟨0, 0, 0⟩
  | 1 => ⟨1, 0, 0⟩
  | 2 => ⟨1, 1, 0⟩
  | 3 => ⟨0, 1, 0⟩
  | 4 => ⟨0, 0, 1⟩
  | 5 => ⟨1, 0, 1⟩
  | 6 => ⟨1, 1, 1⟩
  | 7 => ⟨0, 1, 1⟩
  | _ => ⟨0, 0, 0⟩

/-- Corner k of tetrahedron slot i, as `TetraederDefinitionTable[i][k]`
resolved to cube-corner coordinates. -/
def tetCorner (i k : Nat) : VecR :=
  cubeCorner (((((TetraederDefinitionTable.get? i).getD []).get? k).getD 0).toNat)

/-- Convex combination with weights a, b, c, d of the four corners of
tetrahedron slot i. -/
def combo (a b c d : ℝ) (i : Nat) : VecR :=
  ⟨a * (tetCorner i 0).x + b * (tetCorner i 1).x + c * (tetCorner i 2).x + d * (tetCorner i 3).x,
   a * (tetCorner i 0).y + b * (tetCorner i 1).y + c * (tetCorner i 2).y + d * (tetCorner i 3).y,
   a * (tetCorner i 0).z + b * (tetCorner i 1).z + c * (tetCorner i 2).z + d * (tetCorner i 3).z⟩

/-- Membership in tetrahedron slot i: p is a convex combination of the four
corners listed in `TetraederDefinitionTable[i]`. -/
def inTetra (i : Nat) (p : VecR) : Prop :=
  ∃ a b c d : ℝ, 0 ≤ a ∧ 0 ≤ b ∧ 0 ≤ c ∧ 0 ≤ d ∧ a + b + c + d = 1 ∧ p = combo a b c d i

/-- Membership in the interior of tetrahedron slot i: a convex combination
of its four corners with all weights strictly positive (the open simplex). -/
def inOpenTetra (i : Nat) (p : VecR) : Prop :=
  ∃ a b c d : ℝ, 0 < a ∧ 0 < b ∧ 0 < c ∧ 0 < d ∧ a + b + c + d = 1 ∧ p = combo a b c d i

/-- Membership in the axis-aligned unit cube. -/
def inCube (p : VecR) : Prop :=
  0 ≤ p.x ∧ p.x ≤ 1 ∧ 0 ≤ p.y ∧ p.y ≤ 1 ∧ 0 ≤ p.z ∧ p.z ≤ 1

theorem combo0_eval (a b c d : ℝ) : combo a b c d 0 = ⟨b, c, d⟩ := by
  have h : combo a b c d 0 =
      VecR.mk (a*0 + b*1 + c*0 + d*0) (a*0 + b*0 + c*1 + d*0) (a*0 + b*0 + c*0 + d*1) := rfl
  rw [h]
  simp only [VecR.mk.injEq]
  exact ⟨by ring, by ring, by ring⟩

theorem combo1_eval (a b c d : ℝ) : combo a b c d 1 = ⟨b + c, a + c, d⟩ := by
  have h : combo a b c d 1 =
      VecR.mk (a*0 + b*1 + c*1 + d*0) (a*1 + b*0 + c*1 + d*0) (a*0 + b*0 + c*0 + d*1) := rfl
  rw [h]
  simp only [VecR.mk.injEq]
  exact ⟨by ring, by ring, by ring⟩

theorem combo2_eval (a b c d : ℝ) : combo a b c d 2 = ⟨b, b + c + d, a + d⟩ := by
  have h : combo a b c d 2 =
      VecR.mk (a*0 + b*1 + c*0 + d*0) (a*0 + b*1 + c*1 + d*1) (a*1 + b*0 + c*0 + d*1) := rfl
  rw [h]
  simp only [VecR.mk.injEq]
  exact ⟨by ring, by ring, by ring⟩

theorem combo3_eval (a b c d : ℝ) : combo a b c d 3 = ⟨a + b + c, c, b + d⟩ := by
  have h : combo a b c d 3 =
      VecR.mk (a*1 + b*1 + c*1 + d*0) (a*0 + b*0 + c*1 + d*0) (a*0 + b*1 + c*0 + d*1) := rfl
  rw [h]
  simp only [VecR.mk.injEq]
  exact ⟨by ring, by ring, by ring⟩

theorem combo4_eval (a b c d : ℝ) : combo a b c d 4 = ⟨b + c, c + d, a + b + d⟩ := by
  have h : combo a b c d 4 =
      VecR.mk (a*0 + b*1 + c*1 + d*0) (a*0 + b*0 + c*1 + d*1) (a*1 + b*1 + c*0 + d*1) := rfl
  rw [h]
  simp only [VecR.mk.injEq]
  exact ⟨by ring, by ring, by ring⟩

theorem combo5_eval (a b c d : ℝ) : combo a b c d 5 = ⟨a + b + c, a + c + d, b + c + d⟩ := by
  have h : combo a b c d 5 =
      VecR.mk (a*1 + b*1 + c*1 + d*0) (a*1 + b*0 + c*1 + d*1) (a*0 + b*1 + c*1 + d*1) := rfl
  rw [h]
  simp only [VecR.mk.injEq]
  exact ⟨by ring, by ring, by ring⟩

theorem tetra0_facts (p : VecR) (h : inTetra 0 p) :
    0 ≤ p.x ∧ p.x ≤ 1 ∧ 0 ≤ p.y ∧ p.y ≤ 1 ∧ 0 ≤ p.z ∧ p.z ≤ 1 ∧
    p.x + p.y + p.z ≤ 1 ∧ p.x + p.y + p.z ≤ 1 ∧ p.x + p.y + p.z ≤ 1 := by
  obtain ⟨a, b, c, d, ha, hb, hc, hd, hs, hp⟩ := h
  rw [combo0_eval] at hp
  have hx : p.x = b := by rw [hp]
  have hy : p.y = c := by rw [hp]
  have hz : p.z = d := by rw [hp]
  refine ⟨by linarith, by linarith, by linarith, by linarith, by linarith, by linarith,
    by linarith, by linarith, by linarith⟩

theorem tetra0_open_facts (p : VecR) (h : inOpenTetra 0 p) :
    0 < p.x ∧ p.x < 1 ∧ 0 < p.y ∧ p.y < 1 ∧ 0 < p.z ∧ p.z < 1 ∧
    p.x + p.y + p.z < 1 ∧ p.x + p.y + p.z < 1 ∧ p.x + p.y + p.z < 1 := by
  obtain ⟨a, b, c, d, ha, hb, hc, hd, hs, hp⟩ := h
  rw [combo0_eval] at hp
  have hx : p.x = b := by rw [hp]
  have hy : p.y = c := by rw [hp]
  have hz : p.z = d := by rw [hp]
  refine ⟨by linarith, by linarith, by linarith, by linarith, by linarith, by linarith,
    by linarith, by linarith, by linarith⟩

theorem tetra1_facts (p : VecR) (h : inTetra 1 p) :
    0 ≤ p.x ∧ p.x ≤ 1 ∧ 0 ≤ p.y ∧ p.y ≤ 1 ∧ 0 ≤ p.z ∧ p.z ≤ 1 ∧
    1 ≤ p.x + p.y + p.z ∧ p.y + p.z ≤ 1 ∧ p.x + p.z ≤ 1 := by
  obtain ⟨a, b, c, d, ha, hb, hc, hd, hs, hp⟩ := h
  rw [combo1_eval] at hp
  have hx : p.x = b + c := by rw [hp]
  have hy : p.y = a + c := by rw [hp]
  have hz : p.z = d := by rw [hp]
  refine ⟨by linarith, by linarith, by linarith, by linarith, by linarith, by linarith,
    by linarith, by linarith, by linarith⟩

theorem tetra1_open_facts (p : VecR) (h : inOpenTetra 1 p) :
    0 < p.x ∧ p.x < 1 ∧ 0 < p.y ∧ p.y < 1 ∧ 0 < p.z ∧ p.z < 1 ∧
    1 < p.x + p.y + p.z ∧ p.y + p.z < 1 ∧ p.x + p.z < 1 := by
  obtain ⟨a, b, c, d, ha, hb, hc, hd, hs, hp⟩ := h
  rw [combo1_eval] at hp
  have hx : p.x = b + c := by rw [hp]
  have hy : p.y = a + c := by rw [hp]
  have hz : p.z = d := by rw [hp]
  refine ⟨by linarith, by linarith, by linarith, by linarith, by linarith, by linarith,
    by linarith, by linarith, by linarith⟩

theorem tetra2_facts (p : VecR) (h : inTetra 2 p) :
    0 ≤ p.x ∧ p.x ≤ 1 ∧ 0 ≤ p.y ∧ p.y ≤ 1 ∧ 0 ≤ p.z ∧ p.z ≤ 1 ∧
    p.x + p.z ≤ 1 ∧ 1 ≤ p.y + p.z ∧ 1 ≤ p.x + p.y + p.z := by
  obtain ⟨a, b, c, d, ha, hb, hc, hd, hs, hp⟩ := h
  rw [combo2_eval] at hp
  have hx : p.x = b := by rw [hp]
  have hy : p.y = b + c + d := by rw [hp]
  have hz : p.z = a + d := by rw [hp]
  refine ⟨by linarith, by linarith, by linarith, by linarith, by linarith, by linarith,
    by linarith, by linarith, by linarith⟩

theorem tetra2_open_facts (p : VecR) (h : inOpenTetra 2 p) :
    0 < p.x ∧ p.x < 1 ∧ 0 < p.y ∧ p.y < 1 ∧ 0 < p.z ∧ p.z < 1 ∧
    p.x + p.z < 1 ∧ 1 < p.y + p.z ∧ 1 < p.x + p.y + p.z := by
  obtain ⟨a, b, c, d, ha, hb, hc, hd, hs, hp⟩ := h
  rw [combo2_eval] at hp
  have hx : p.x = b := by rw [hp]
  have hy : p.y = b + c + d := by rw [hp]
  have hz : p.z = a + d := by rw [hp]
  refine ⟨by linarith, by linarith, by linarith, by linarith, by linarith, by linarith,
    by linarith, by linarith, by linarith⟩

theorem tetra3_facts (p : VecR) (h : inTetra 3 p) :
    0 ≤ p.x ∧ p.x ≤ 1 ∧ 0 ≤ p.y ∧ p.y ≤ 1 ∧ 0 ≤ p.z ∧ p.z ≤ 1 ∧
    1 ≤ p.x + p.z ∧ p.y + p.z ≤ 1 ∧ 1 ≤ p.x + p.y + p.z := by
  obtain ⟨a, b, c, d, ha, hb, hc, hd, hs, hp⟩ := h
  rw [combo3_eval] at hp
  have hx : p.x = a + b + c := by rw [hp]
  have hy : p.y = c := by rw [hp]
  have hz : p.z = b + d := by rw [hp]
  refine ⟨by linarith, by linarith, by linarith, by linarith, by linarith, by linarith,
    by linarith, by linarith, by linarith⟩

theorem tetra3_open_facts (p : VecR) (h : inOpenTetra 3 p) :
    0 < p.x ∧ p.x < 1 ∧ 0 < p.y ∧ p.y < 1 ∧ 0 < p.z ∧ p.z < 1 ∧
    1 < p.x + p.z ∧ p.y + p.z < 1 ∧ 1 < p.x + p.y + p.z := by
  obtain ⟨a, b, c, d, ha, hb, hc, hd, hs, hp⟩ := h
  rw [combo3_eval] at hp
  have hx : p.x = a + b + c := by rw [hp]
  have hy : p.y = c := by rw [hp]
  have hz : p.z = b + d := by rw [hp]
  refine ⟨by linarith, by linarith, by linarith, by linarith, by linarith, by linarith,
    by linarith, by linarith, by linarith⟩

theorem tetra4_facts (p : VecR) (h : inTetra 4 p) :
    0 ≤ p.x ∧ p.x ≤ 1 ∧ 0 ≤ p.y ∧ p.y ≤ 1 ∧ 0 ≤ p.z ∧ p.z ≤ 1 ∧
    1 ≤ p.x + p.z ∧ 1 ≤ p.y + p.z ∧ p.x + p.y + p.z ≤ 2 := by
  obtain ⟨a, b, c, d, ha, hb, hc, hd, hs, hp⟩ := h
  rw [combo4_eval] at hp
  have hx : p.x = b + c := by rw [hp]
  have hy : p.y = c + d := by rw [hp]
  have hz : p.z = a + b + d := by rw [hp]
  refine ⟨by linarith, by linarith, by linarith, by linarith, by linarith, by linarith,
    by linarith, by linarith, by linarith⟩

theorem tetra4_open_facts (p : VecR) (h : inOpenTetra 4 p) :
    0 < p.x ∧ p.x < 1 ∧ 0 < p.y ∧ p.y < 1 ∧ 0 < p.z ∧ p.z < 1 ∧
    1 < p.x + p.z ∧ 1 < p.y + p.z ∧ p.x + p.y + p.z < 2 := by
  obtain ⟨a, b, c, d, ha, hb, hc, hd, hs, hp⟩ := h
  rw [combo4_eval] at hp
  have hx : p.x = b + c := by rw [hp]
  have hy : p.y = c + d := by rw [hp]
  have hz : p.z = a + b + d := by rw [hp]
  refine ⟨by linarith, by linarith, by linarith, by linarith, by linarith, by linarith,
    by linarith, by linarith, by linarith⟩

theorem tetra5_facts (p : VecR) (h : inTetra 5 p) :
    0 ≤ p.x ∧ p.x ≤ 1 ∧ 0 ≤ p.y ∧ p.y ≤ 1 ∧ 0 ≤ p.z ∧ p.z ≤ 1 ∧
    2 ≤ p.x + p.y + p.z ∧ 2 ≤ p.x + p.y + p.z ∧ 2 ≤ p.x + p.y + p.z := by
  obtain ⟨a, b, c, d, ha, hb, hc, hd, hs, hp⟩ := h
  rw [combo5_eval] at hp
  have hx : p.x = a + b + c := by rw [hp]
  have hy : p.y = a + c + d := by rw [hp]
  have hz : p.z = b + c + d := by rw [hp]
  refine ⟨by linarith, by linarith, by linarith, by linarith, by linarith, by linarith,
    by linarith, by linarith, by linarith⟩

theorem tetra5_open_facts (p : VecR) (h : inOpenTetra 5 p) :
    0 < p.x ∧ p.x < 1 ∧ 0 < p.y ∧ p.y < 1 ∧ 0 < p.z ∧ p.z < 1 ∧
    2 < p.x + p.y + p.z ∧ 2 < p.x + p.y + p.z ∧ 2 < p.x + p.y + p.z := by
  obtain ⟨a, b, c, d, ha, hb, hc, hd, hs, hp⟩ := h
  rw [combo5_eval] at hp
  have hx : p.x = a + b + c := by rw [hp]
  have hy : p.y = a + c + d := by rw [hp]
  have hz : p.z = b + c + d := by rw [hp]
  refine ⟨by linarith, by linarith, by linarith, by linarith, by linarith, by linarith,
    by linarith, by linarith, by linarith⟩

theorem vecR_eq_of (p : VecR) (A B C : ℝ) (h1 : p.x = A) (h2 : p.y = B) (h3 : p.z = C) :
    p = ⟨A, B, C⟩ := by
  cases p
  simp only [VecR.mk.injEq]
  exact ⟨h1, h2, h3⟩

theorem cube_covered (p : VecR) (h : inCube p) : ∃ i : Fin 6, inTetra i.val p := by
  obtain ⟨hx0, hx1, hy0, hy1, hz0, hz1⟩ := h
  rcases le_or_lt (p.x + p.y + p.z) 1 with hs1 | hs1
  · refine ⟨0, ?_⟩
    show inTetra 0 p
    refine ⟨1 - p.x - p.y - p.z, p.x, p.y, p.z,
      by linarith, hx0, hy0, hz0, by ring, ?_⟩
    rw [combo0_eval]
  · rcases le_or_lt 2 (p.x + p.y + p.z) with hs2 | hs2
    · refine ⟨5, ?_⟩
      show inTetra 5 p
      refine ⟨1 - p.z, 1 - p.y, p.x + p.y + p.z - 2, 1 - p.x,
        by linarith, by linarith, by linarith, by linarith, by ring, ?_⟩
      rw [combo5_eval]
      exact vecR_eq_of p _ _ _ (by ring) (by ring) (by ring)
    · rcases le_total (p.x + p.z) 1 with hxz | hxz <;>
        rcases le_total (p.y + p.z) 1 with hyz | hyz
      · refine ⟨1, ?_⟩
        show inTetra 1 p
        refine ⟨1 - p.x - p.z, 1 - p.y - p.z, p.x + p.y + p.z - 1, p.z,
          by linarith, by linarith, by linarith, hz0, by ring, ?_⟩
        rw [combo1_eval]
        exact vecR_eq_of p _ _ _ (by ring) (by ring) (by ring)
      · refine ⟨2, ?_⟩
        show inTetra 2 p
        refine ⟨1 - p.y, p.x, 1 - p.x - p.z, p.y + p.z - 1,
          by linarith, hx0, by linarith, by linarith, by ring, ?_⟩
        rw [combo2_eval]
        exact vecR_eq_of p _ _ _ (by ring) (by ring) (by ring)
      · refine ⟨3, ?_⟩
        show inTetra 3 p
        refine ⟨1 - p.y - p.z, p.x + p.z - 1, p.y, 1 - p.x,
          by linarith, by linarith, hy0, by linarith, by ring, ?_⟩
        rw [combo3_eval]
        exact vecR_eq_of p _ _ _ (by ring) (by ring) (by ring)
      · refine ⟨4, ?_⟩
        show inTetra 4 p
        refine ⟨2 - p.x - p.y - p.z, p.x + p.z - 1, 1 - p.z, p.y + p.z - 1,
          by linarith, by linarith, by linarith, by linarith, by ring, ?_⟩
        rw [combo4_eval]
        exact vecR_eq_of p _ _ _ (by ring) (by ring) (by ring)

theorem tetra_sub_cube (i : Fin 6) (p : VecR) (h : inTetra i.val p) : inCube p := by
  fin_cases i
  · obtain ⟨h1, h2, h3, h4, h5, h6, _, _, _⟩ := tetra0_facts p h
    exact ⟨h1, h2, h3, h4, h5, h6⟩
  · obtain ⟨h1, h2, h3, h4, h5, h6, _, _, _⟩ := tetra1_facts p h
    exact ⟨h1, h2, h3, h4, h5, h6⟩
  · obtain ⟨h1, h2, h3, h4, h5, h6, _, _, _⟩ := tetra2_facts p h
    exact ⟨h1, h2, h3, h4, h5, h6⟩
  · obtain ⟨h1, h2, h3, h4, h5, h6, _, _, _⟩ := tetra3_facts p h
    exact ⟨h1, h2, h3, h4, h5, h6⟩
  · obtain ⟨h1, h2, h3, h4, h5, h6, _, _, _⟩ := tetra4_facts p h
    exact ⟨h1, h2, h3, h4, h5, h6⟩
  · obtain ⟨h1, h2, h3, h4, h5, h6, _, _, _⟩ := tetra5_facts p h
    exact ⟨h1, h2, h3, h4, h5, h6⟩

theorem tetra_interiors_disjoint :
    ∀ i j : Fin 6, i ≠ j → ∀ p : VecR, inOpenTetra i.val p → ¬ inTetra j.val p := by
  intro i j hij p hi hj
  fin_cases i <;> fin_cases j
  · exact hij rfl
  · obtain ⟨a1, a2, a3, a4, a5, a6, a7, a8, a9⟩ := tetra0_open_facts p hi
    obtain ⟨b1, b2, b3, b4, b5, b6, b7, b8, b9⟩ := tetra1_facts p hj
    linarith
  · obtain ⟨a1, a2, a3, a4, a5, a6, a7, a8, a9⟩ := tetra0_open_facts p hi
    obtain ⟨b1, b2, b3, b4, b5, b6, b7, b8, b9⟩ := tetra2_facts p hj
    linarith
  · obtain ⟨a1, a2, a3, a4, a5, a6, a7, a8, a9⟩ := tetra0_open_facts p hi
    obtain ⟨b1, b2, b3, b4, b5, b6, b7, b8, b9⟩ := tetra3_facts p hj
    linarith
  · obtain ⟨a1, a2, a3, a4, a5, a6, a7, a8, a9⟩ := tetra0_open_facts p hi
    obtain ⟨b1, b2, b3, b4, b5, b6, b7, b8, b9⟩ := tetra4_facts p hj
    linarith
  · obtain ⟨a1, a2, a3, a4, a5, a6, a7, a8, a9⟩ := tetra0_open_facts p hi
    obtain ⟨b1, b2, b3, b4, b5, b6, b7, b8, b9⟩ := tetra5_facts p hj
    linarith
  · obtain ⟨a1, a2, a3, a4, a5, a6, a7, a8, a9⟩ := tetra1_open_facts p hi
    obtain ⟨b1, b2, b3, b4, b5, b6, b7, b8, b9⟩ := tetra0_facts p hj
    linarith
  · exact hij rfl
  · obtain ⟨a1, a2, a3, a4, a5, a6, a7, a8, a9⟩ := tetra1_open_facts p hi
    obtain ⟨b1, b2, b3, b4, b5, b6, b7, b8, b9⟩ := tetra2_facts p hj
    linarith
  · obtain ⟨a1, a2, a3, a4, a5, a6, a7, a8, a9⟩ := tetra1_open_facts p hi
    obtain ⟨b1, b2, b3, b4, b5, b6, b7, b8, b9⟩ := tetra3_facts p hj
    linarith
  · obtain ⟨a1, a2, a3, a4, a5, a6, a7, a8, a9⟩ := tetra1_open_facts p hi
    obtain ⟨b1, b2, b3, b4, b5, b6, b7, b8, b9⟩ := tetra4_facts p hj
    linarith
  · obtain ⟨a1, a2, a3, a4, a5, a6, a7, a8, a9⟩ := tetra1_open_facts p hi
    obtain ⟨b1, b2, b3, b4, b5, b6, b7, b8, b9⟩ := tetra5_facts p hj
    linarith
  · obtain ⟨a1, a2, a3, a4, a5, a6, a7, a8, a9⟩ := tetra2_open_facts p hi
    obtain ⟨b1, b2, b3, b4, b5, b6, b7, b8, b9⟩ := tetra0_facts p hj
    linarith
  · obtain ⟨a1, a2, a3, a4, a5, a6, a7, a8, a9⟩ := tetra2_open_facts p hi
    obtain ⟨b1, b2, b3, b4, b5, b6, b7, b8, b9⟩ := tetra1_facts p hj
    linarith
  · exact hij rfl
  · obtain ⟨a1, a2, a3, a4, a5, a6, a7, a8, a9⟩ := tetra2_open_facts p hi
    obtain ⟨b1, b2, b3, b4, b5, b6, b7, b8, b9⟩ := tetra3_facts p hj
    linarith
  · obtain ⟨a1, a2, a3, a4, a5, a6, a7, a8, a9⟩ := tetra2_open_facts p hi
    obtain ⟨b1, b2, b3, b4, b5, b6, b7, b8, b9⟩ := tetra4_facts p hj
    linarith
  · obtain ⟨a1, a2, a3, a4, a5, a6, a7, a8, a9⟩ := tetra2_open_facts p hi
    obtain ⟨b1, b2, b3, b4, b5, b6, b7, b8, b9⟩ := tetra5_facts p hj
    linarith
  · obtain ⟨a1, a2, a3, a4, a5, a6, a7, a8, a9⟩ := tetra3_open_facts p hi
    obtain ⟨b1, b2, b3, b4, b5, b6, b7, b8, b9⟩ := tetra0_facts p hj
    linarith
  · obtain ⟨a1, a2, a3, a4, a5, a6, a7, a8, a9⟩ := tetra3_open_facts p hi
    obtain ⟨b1, b2, b3, b4, b5, b6, b7, b8, b9⟩ := tetra1_facts p hj
    linarith
  · obtain ⟨a1, a2, a3, a4, a5, a6, a7, a8, a9⟩ := tetra3_open_facts p hi
    obtain ⟨b1, b2, b3, b4, b5, b6, b7, b8, b9⟩ := tetra2_facts p hj
    linarith
  · exact hij rfl
  · obtain ⟨a1, a2, a3, a4, a5, a6, a7, a8, a9⟩ := tetra3_open_facts p hi
    obtain ⟨b1, b2, b3, b4, b5, b6, b7, b8, b9⟩ := tetra4_facts p hj
    linarith
  · obtain ⟨a1, a2, a3, a4, a5, a6, a7, a8, a9⟩ := tetra3_open_facts p hi
    obtain ⟨b1, b2, b3, b4, b5, b6, b7, b8, b9⟩ := tetra5_facts p hj
    linarith
  · obtain ⟨a1, a2, a3, a4, a5, a6, a7, a8, a9⟩ := tetra4_open_facts p hi
    obtain ⟨b1, b2, b3, b4, b5, b6, b7, b8, b9⟩ := tetra0_facts p hj
    linarith
  · obtain ⟨a1, a2, a3, a4, a5, a6, a7, a8, a9⟩ := tetra4_open_facts p hi
    obtain ⟨b1, b2, b3, b4, b5, b6, b7, b8, b9⟩ := tetra1_facts p hj
    linarith
  · obtain ⟨a1, a2, a3, a4, a5, a6, a7, a8, a9⟩ := tetra4_open_facts p hi
    obtain ⟨b1, b2, b3, b4, b5, b6, b7, b8, b9⟩ := tetra2_facts p hj
    linarith
  · obtain ⟨a1, a2, a3, a4, a5, a6, a7, a8, a9⟩ := tetra4_open_facts p hi
    obtain ⟨b1, b2, b3, b4, b5, b6, b7, b8, b9⟩ := tetra3_facts p hj
    linarith
  · exact hij rfl
  · obtain ⟨a1, a2, a3, a4, a5, a6, a7, a8, a9⟩ := tetra4_open_facts p hi
    obtain ⟨b1, b2, b3, b4, b5, b6, b7, b8, b9⟩ := tetra5_facts p hj
    linarith
  · obtain ⟨a1, a2, a3, a4, a5, a6, a7, a8, a9⟩ := tetra5_open_facts p hi
    obtain ⟨b1, b2, b3, b4, b5, b6, b7, b8, b9⟩ := tetra0_facts p hj
    linarith
  · obtain ⟨a1, a2, a3, a4, a5, a6, a7, a8, a9⟩ := tetra5_open_facts p hi
    obtain ⟨b1, b2, b3, b4, b5, b6, b7, b8, b9⟩ := tetra1_facts p hj
    linarith
  · obtain ⟨a1, a2, a3, a4, a5, a6, a7, a8, a9⟩ := tetra5_open_facts p hi
    obtain ⟨b1, b2, b3, b4, b5, b6, b7, b8, b9⟩ := tetra2_facts p hj
    linarith
  · obtain ⟨a1, a2, a3, a4, a5, a6, a7, a8, a9⟩ := tetra5_open_facts p hi
    obtain ⟨b1, b2, b3, b4, b5, b6, b7, b8, b9⟩ := tetra3_facts p hj
    linarith
  · obtain ⟨a1, a2, a3, a4, a5, a6, a7, a8, a9⟩ := tetra5_open_facts p hi
    obtain ⟨b1, b2, b3, b4, b5, b6, b7, b8, b9⟩ := tetra4_facts p hj
    linarith
  · exact hij rfl

/-- C5: the six tetrahedra of `TetraederDefinitionTable` exactly partition
the axis-aligned unit cube: a point lies in the cube iff it lies in some
tetrahedron, and the interior of any tetrahedron meets no other tetrahedron,
so two tetrahedra meet only on their boundary faces. -/
theorem tetraederDefinitionTable_partitions_cube :
    (∀ p : VecR, inCube p ↔ ∃ i : Fin 6, inTetra i.val p) ∧
    (∀ i j : Fin 6, i ≠ j → ∀ p : VecR, inOpenTetra i.val p → ¬ inTetra j.val p) := by
  refine ⟨fun p => ⟨cube_covered p, ?_⟩, tetra_interiors_disjoint⟩
  rintro ⟨i, hi⟩
  exact tetra_sub_cube i p hi

/-- Witness for C5: the cube center lies in some tetrahedron, and a point in
the interior of tetrahedron 0 is in no other tetrahedron. -/
theorem tetraederDefinitionTable_partitions_cube_witness :
    (∃ i : Fin 6, inTetra i.val ⟨1/2, 1/2, 1/2⟩) ∧
    ¬ inTetra 1 ⟨1/8, 1/8, 1/8⟩ := by
  constructor
  · exact (tetraederDefinitionTable_partitions_cube.1 ⟨1/2, 1/2, 1/2⟩).mp
      (by norm_num [inCube])
  · refine tetraederDefinitionTable_partitions_cube.2 0 1 (by decide) ⟨1/8, 1/8, 1/8⟩ ?_
    show inOpenTetra 0 ⟨1/8, 1/8, 1/8⟩
    refine ⟨5/8, 1/8, 1/8, 1/8, by norm_num, by norm_num, by norm_num, by norm_num,
      by norm_num, ?_⟩
    rw [combo0_eval]

/-- C8: `calcNormals` is idempotent on unchanged data — invoking it twice in
succession yields exactly the same manager state as invoking it once — and
each invocation overwrites any previously stored normals (its result does
not depend on them). -/
theorem calcNormals_idempotent_overwrites (m : Manager) (prior : List VecQ) :
    calcNormals (calcNormals m) = calcNormals m ∧
    calcNormals { m with normals := prior } = calcNormals m := by
  constructor <;> simp [calcNormals]

end LVR
